import Mathlib

/-!
# PWM test program (`src/main.c`): shallow embedding and verified properties

The program maps the PWM, GPIO and Clock Manager register blocks of a
Raspberry Pi and drives the PWM peripheral.  The embedding below follows
`src/main.c` function by function.

Modelling conventions.

* A `uint32_t` is a `Nat` below `2 ^ 32`; every arithmetic operation of the C
  code on `uint32_t` operands is reduced modulo `2 ^ 32` explicitly.
* A C `int` is an `Int`; where C converts it to `uint32_t` (the usual
  arithmetic conversions of `int * uint32_t`) the conversion is `int_to_u32`.
* Division by a zero divisor is undefined behaviour in C: the embedding of a
  function that performs it returns `none` there.
* The PWM registers are modelled as memory: a read returns the value last
  written.  Reads of the Clock Manager control register (the busy bit is owned
  by the hardware) come from a read sequence `rd : Nat → Nat`, the `k`-th read
  returning `rd k`; a busy-wait loop is run with fuel.
* `usleep` and `printf` have no effect on the register state and are left out.
* The headers `pwm.h`, `clk.h`, `rpihw.h` are not part of the source tree:
  the constants and the macro they define are the fields of `HwConsts`, a
  parameter of every function that uses one.
-/

namespace PwmTest

/-! ## Machine arithmetic -/

/-- Sum of two `uint32_t` values, wrapping modulo `2 ^ 32`. -/
def add32 (a b : Nat) : Nat := (a + b) % 2 ^ 32

/-- Difference of two `uint32_t` values, wrapping modulo `2 ^ 32`. -/
def sub32 (a b : Nat) : Nat := (a % 2 ^ 32 + 2 ^ 32 - b % 2 ^ 32) % 2 ^ 32

/-- Product of two `uint32_t` values, wrapping modulo `2 ^ 32`. -/
def mul32 (a b : Nat) : Nat := (a * b) % 2 ^ 32

/-- Bitwise complement of a constant, as a `uint32_t` (`~c` used in `x &= ~c`). -/
def not32 (c : Nat) : Nat := (2 ^ 32 - 1) ^^^ c

/-- Conversion of a C `int` to `uint32_t` (two's complement, modulo `2 ^ 32`). -/
def int_to_u32 : Int → Nat
  | Int.ofNat n => n % 2 ^ 32
  | Int.negSucc n => 2 ^ 32 - 1 - n % 2 ^ 32

/-! ## Constants of the missing headers -/

/-- Constants and macro of `pwm.h`, `clk.h` and `rpihw.h` used by `main.c`. -/
structure HwConsts where
  RPI_PWM_CTL_PWEN1 : Nat
  RPI_PWM_CTL_PWEN2 : Nat
  CM_CLK_CTL_PASSWD : Nat
  CM_CLK_CTL_KILL : Nat
  CM_CLK_CTL_BUSY : Nat
  CM_CLK_CTL_ENAB : Nat
  CM_CLK_CTL_SRC_OSC : Nat
  CM_CLK_DIV_PASSWD : Nat
  CM_CLK_DIV_DIVI : Nat → Nat
  RPI_HWVER_TYPE_PI4 : Nat

/-- Oscillator frequency of the Raspberry Pi (`#define OSC_FREQ`). -/
def OSC_FREQ : Nat := 19200000

/-- Oscillator frequency of the Raspberry Pi 4 (`#define OSC_FREQ_PI4`). -/
def OSC_FREQ_PI4 : Nat := 54000000

/-! ## Data model -/

/-- The registers of `pwm_t` that `main.c` reads or writes. -/
structure PwmRegs where
  ctl : Nat
  rng1 : Nat
  dat1 : Nat
  rng2 : Nat
  dat2 : Nat
deriving DecidableEq

/-- Every register holds a 32-bit value. -/
def PwmRegs.wf (s : PwmRegs) : Prop :=
  s.ctl < 2 ^ 32 ∧ s.rng1 < 2 ^ 32 ∧ s.dat1 < 2 ^ 32 ∧ s.rng2 < 2 ^ 32 ∧ s.dat2 < 2 ^ 32

/-- The type `duty_cycle_change_t`. -/
inductive duty_cycle_change_t where
  | INCREASE
  | DECREASE
deriving DecidableEq

/-- The global variables `gpio_num`, `channel_num`, `duty_cycle`. -/
structure Globals where
  gpio_num : Int
  channel_num : Int
  duty_cycle : Int
deriving DecidableEq

/-- The two registers of `cm_clk_t`. -/
inductive CmReg where
  | ctl
  | div
deriving DecidableEq

/-- One write to a Clock Manager register. -/
structure CmWrite where
  reg : CmReg
  val : Nat
deriving DecidableEq

/-! ## Operations -/

/-- Function `parse_args`: the options given on the command line (`none` when
an option is absent) resolved to the three globals. -/
def parse_args (gpio_opt channel_opt d_cycle_opt : Option Int) : Globals :=
  { gpio_num := match gpio_opt with
      | some g => g
      | none => 18
    channel_num := match channel_opt with
      | some c => c
      | none => 0
    duty_cycle := match d_cycle_opt with
      | some d => if 0 ≤ d ∧ d ≤ 100 then d else 50
      | none => 50 }

/-- Function `check_pin_setup`: `true` stands for the return value `0`, `false`
for `-1`.  `pwm_pin_alt` is the external pin table; `gpio_function_set` only
touches the GPIO block, which is not modelled. -/
def check_pin_setup (pwm_pin_alt : Int → Int → Int) (g : Globals) : Bool :=
  let altnum := pwm_pin_alt g.channel_num g.gpio_num
  if altnum = -1 then false else true

/-- Busy-wait `while (cond(cm_clk->ctl));`: reads the control register from
read index `k` on while `cond` holds; returns the index of the next read. -/
def busy_wait (cond : Nat → Bool) (rd : Nat → Nat) : Nat → Nat → Option Nat
  | 0, _ => none
  | fuel + 1, k => if cond (rd k) then busy_wait cond rd fuel (k + 1) else some (k + 1)

/-- Oscillator frequency selected in `pwm_register_config`. -/
def osc_freq (K : HwConsts) (hw_type : Nat) : Nat :=
  if hw_type = K.RPI_HWVER_TYPE_PI4 then OSC_FREQ_PI4 else OSC_FREQ

/-- The expression `osc_freq / (3 * freq)` of `pwm_register_config`, `freq = 800000`. -/
def clock_divisor (K : HwConsts) (hw_type : Nat) : Nat :=
  osc_freq K hw_type / mul32 3 800000

/-- Function `pwm_register_config`: returns the PWM registers and the list of
writes made to the Clock Manager, in program order; `none` when a busy-wait
does not end within `fuel` reads. -/
def pwm_register_config (K : HwConsts) (hw_type : Nat) (rd : Nat → Nat) (fuel : Nat)
    (pwm : PwmRegs) : Option (PwmRegs × List CmWrite) :=
  let pwm1 := { pwm with ctl := 0 }
  let w1 : CmWrite := ⟨CmReg.ctl, K.CM_CLK_CTL_PASSWD ||| K.CM_CLK_CTL_KILL⟩
  match busy_wait (fun v => decide (v &&& K.CM_CLK_CTL_BUSY ≠ 0)) rd fuel 0 with
  | none => none
  | some k =>
    let w2 : CmWrite := ⟨CmReg.div, K.CM_CLK_DIV_PASSWD ||| K.CM_CLK_DIV_DIVI (clock_divisor K hw_type)⟩
    let w3 : CmWrite := ⟨CmReg.ctl, K.CM_CLK_CTL_PASSWD ||| K.CM_CLK_CTL_SRC_OSC⟩
    let w4 : CmWrite :=
      ⟨CmReg.ctl, K.CM_CLK_CTL_PASSWD ||| K.CM_CLK_CTL_SRC_OSC ||| K.CM_CLK_CTL_ENAB⟩
    match busy_wait (fun v => decide (¬ (v &&& K.CM_CLK_CTL_BUSY ≠ 0))) rd fuel k with
    | none => none
    | some _ => some (pwm1, [w1, w2, w3, w4])

/-- Function `set_pwm_max`. -/
def set_pwm_max (pwm : PwmRegs) (range : Nat) : PwmRegs :=
  { pwm with rng1 := range }

/-- Function `enable_pwm`. -/
def enable_pwm (K : HwConsts) (g : Globals) (pwm : PwmRegs) : PwmRegs :=
  if g.channel_num = 0 then
    { pwm with ctl := pwm.ctl ||| K.RPI_PWM_CTL_PWEN1 }
  else
    { pwm with ctl := pwm.ctl ||| K.RPI_PWM_CTL_PWEN2 }

/-- Function `disable_pwm`. -/
def disable_pwm (K : HwConsts) (g : Globals) (pwm : PwmRegs) : PwmRegs :=
  if g.channel_num = 0 then
    { pwm with ctl := pwm.ctl &&& not32 K.RPI_PWM_CTL_PWEN1 }
  else
    { pwm with ctl := pwm.ctl &&& not32 K.RPI_PWM_CTL_PWEN2 }

/-- Function `pwm_set_duty_cycle`. -/
def pwm_set_duty_cycle (g : Globals) (pwm : PwmRegs) : PwmRegs :=
  if g.channel_num = 0 then
    let range := pwm.rng1
    { pwm with dat1 := mul32 range (int_to_u32 g.duty_cycle) / 100 }
  else
    let range := pwm.rng2
    { pwm with dat2 := mul32 range (int_to_u32 g.duty_cycle) / 100 }

/-- The expression `(percentage * range) / 100` of `pwm_duty_cycle_change`. -/
def change_value (percentage : Int) (range : Nat) : Nat :=
  mul32 (int_to_u32 percentage) range / 100

/-- First block of `pwm_duty_cycle_change` (`if (pwm->ctl & RPI_PWM_CTL_PWEN1)`).
The boolean tells whether the function executed `return` inside the block.
The result is `none` when `range` is zero (`(data_register * 100)/range`). -/
def channel1_block (K : HwConsts) (pwm : PwmRegs) (percentage : Int)
    (change : duty_cycle_change_t) : Option (Bool × PwmRegs) :=
  if pwm.ctl &&& K.RPI_PWM_CTL_PWEN1 ≠ 0 then
    let range := pwm.rng1
    let data_register := pwm.dat1
    if range = 0 then none
    else
      let cv := change_value percentage range
      match change with
      | duty_cycle_change_t.INCREASE =>
        if add32 data_register cv > range then some (true, pwm)
        else some (false, { pwm with dat1 := add32 pwm.dat1 cv })
      | duty_cycle_change_t.DECREASE =>
        if sub32 data_register cv < 0 then some (true, pwm)
        else some (false, { pwm with dat1 := sub32 pwm.dat1 cv })
  else some (false, pwm)

/-- Second block of `pwm_duty_cycle_change` (`if (pwm->ctl & RPI_PWM_CTL_PWEN2)`). -/
def channel2_block (K : HwConsts) (pwm : PwmRegs) (percentage : Int)
    (change : duty_cycle_change_t) : Option PwmRegs :=
  if pwm.ctl &&& K.RPI_PWM_CTL_PWEN2 ≠ 0 then
    let range := pwm.rng2
    if range = 0 then none
    else
      let cv := change_value percentage range
      match change with
      | duty_cycle_change_t.INCREASE => some { pwm with dat2 := add32 pwm.dat2 cv }
      | duty_cycle_change_t.DECREASE => some { pwm with dat2 := sub32 pwm.dat2 cv }
  else some pwm

/-- Function `pwm_duty_cycle_change`. -/
def pwm_duty_cycle_change (K : HwConsts) (pwm : PwmRegs) (percentage : Int)
    (change : duty_cycle_change_t) : Option PwmRegs :=
  match channel1_block K pwm percentage change with
  | none => none
  | some (true, s) => some s
  | some (false, s) => channel2_block K s percentage change

/-- A `for` loop of `main` making `n` calls of `pwm_duty_cycle_change`; returns
the register state after each call, in order. -/
def duty_cycle_loop (K : HwConsts) (percentage : Int) (change : duty_cycle_change_t) :
    Nat → PwmRegs → Option (List PwmRegs)
  | 0, _ => some []
  | n + 1, s =>
    match pwm_duty_cycle_change K s percentage change with
    | none => none
    | some s1 =>
      match duty_cycle_loop K percentage change n s1 with
      | none => none
      | some l => some (s1 :: l)

/-- One iteration of the `while (running)` loop of `main`: ten increases by 10
followed by ten decreases by 10; returns the state after each of the 20 calls. -/
def main_loop_iteration (K : HwConsts) (s : PwmRegs) : Option (List PwmRegs) :=
  match duty_cycle_loop K 10 duty_cycle_change_t.INCREASE 10 s with
  | none => none
  | some up =>
    match duty_cycle_loop K 10 duty_cycle_change_t.DECREASE 10 (up.getLastD s) with
    | none => none
    | some down => some (up ++ down)

/-- Ways in which the startup sequence of `main` does not reach the loop. -/
inductive StartupFailure where
  | map_failed
  | pin_invalid
  | clock_hang
deriving DecidableEq

/-- Function `main` from its start up to and including `enable_pwm`: the PWM
registers when the oscillation loop is entered.  `map_ok` is the outcome of
`map_registers_pwm`, `hw_type` the type field of the descriptor returned by
`rpi_hw_detect`, `pwm` the register contents when the program starts. -/
def main_startup (K : HwConsts) (gpio_opt channel_opt d_cycle_opt : Option Int)
    (hw_type : Nat) (map_ok : Bool) (pwm_pin_alt : Int → Int → Int)
    (rd : Nat → Nat) (fuel : Nat) (pwm : PwmRegs) : Except StartupFailure PwmRegs :=
  let g0 := parse_args gpio_opt channel_opt d_cycle_opt
  let g := { g0 with duty_cycle := 0 }
  if ¬ map_ok then Except.error StartupFailure.map_failed
  else if ¬ check_pin_setup pwm_pin_alt g then Except.error StartupFailure.pin_invalid
  else
    match pwm_register_config K hw_type rd fuel pwm with
    | none => Except.error StartupFailure.clock_hang
    | some (pwm1, _) =>
      let pwm2 := set_pwm_max pwm1 100
      let pwm3 := pwm_set_duty_cycle g pwm2
      Except.ok (enable_pwm K g pwm3)

/-! ## Concrete inputs used in evaluations -/

/-- Header constants as one concrete instance: the bit positions of the BCM2835
PWM and Clock Manager registers (PWEN1 bit 0, PWEN2 bit 8, password `0x5a` in the
top byte, BUSY bit 7, KILL bit 5, ENAB bit 4, oscillator source 1, integer
divisor in bits 12 to 23). -/
def bcm : HwConsts :=
  { RPI_PWM_CTL_PWEN1 := 1
    RPI_PWM_CTL_PWEN2 := 256
    CM_CLK_CTL_PASSWD := 0x5a000000
    CM_CLK_CTL_KILL := 32
    CM_CLK_CTL_BUSY := 128
    CM_CLK_CTL_ENAB := 16
    CM_CLK_CTL_SRC_OSC := 1
    CM_CLK_DIV_PASSWD := 0x5a000000
    CM_CLK_DIV_DIVI := fun val => (val &&& 0xfff) <<< 12
    RPI_HWVER_TYPE_PI4 := 4 }

/-- A read sequence of the clock control register: busy for the first two
reads, idle at the third, busy again from the fifth read on. -/
def rd_example (k : Nat) : Nat :=
  if k < 2 then 128 else if k < 4 then 0 else 128 + 16 + 1

/-! ## Arithmetic and bit lemmas -/

open duty_cycle_change_t

/-- On a non-negative `int` the conversion is reduction modulo `2 ^ 32`. -/
theorem int_to_u32_natCast (n : Nat) : int_to_u32 (n : Int) = n % 2 ^ 32 := rfl

/-- The conversion `int_to_u32` is the residue modulo `2 ^ 32`. -/
theorem int_to_u32_eq_emod (i : Int) : int_to_u32 i = (i % 2 ^ 32).toNat := by
  cases i with
  | ofNat n =>
    show n % 2 ^ 32 = _
    rw [Int.ofNat_eq_coe]
    omega
  | negSucc n =>
    show 2 ^ 32 - 1 - n % 2 ^ 32 = _
    rw [Int.negSucc_eq]
    omega

/-- Bits of `c | (1 << b)`. -/
theorem testBit_or_two_pow (c b i : Nat) :
    (c ||| 2 ^ b).testBit i = if i = b then true else c.testBit i := by
  rw [Nat.testBit_or, Nat.testBit_two_pow]
  by_cases h : i = b
  · subst h; simp
  · have : ¬ b = i := fun e => h e.symm
    simp [h, this]

/-- Bits of `c & ~(1 << b)` for a 32-bit `c`. -/
theorem testBit_and_not32_two_pow (c b i : Nat) (hc : c < 2 ^ 32) :
    (c &&& not32 (2 ^ b)).testBit i = if i = b then false else c.testBit i := by
  unfold not32
  rw [Nat.testBit_and, Nat.testBit_xor, Nat.testBit_two_pow_sub_one, Nat.testBit_two_pow]
  by_cases h : i = b
  · subst h
    by_cases h32 : i < 32
    · simp [h32]
    · have : c.testBit i = false :=
        Nat.testBit_lt_two_pow (lt_of_lt_of_le hc (Nat.pow_le_pow_right (by decide) (not_lt.mp h32)))
      simp [this]
  · have hne : ¬ b = i := fun e => h e.symm
    by_cases h32 : i < 32
    · simp [h, hne, h32]
    · have : c.testBit i = false :=
        Nat.testBit_lt_two_pow (lt_of_lt_of_le hc (Nat.pow_le_pow_right (by decide) (not_lt.mp h32)))
      simp [this, h]

/-- Every bit of `a` is set in `a | b`. -/
theorem and_self_of_or_left (a b : Nat) : (a ||| b) &&& a = a := by
  apply Nat.eq_of_testBit_eq
  intro i
  simp only [Nat.testBit_and, Nat.testBit_or]
  cases a.testBit i <;> cases b.testBit i <;> rfl

/-- Masking distributes over `|`. -/
theorem or_and_distrib (a b c : Nat) : (a ||| b) &&& c = (a &&& c) ||| (b &&& c) := by
  apply Nat.eq_of_testBit_eq
  intro i
  simp only [Nat.testBit_and, Nat.testBit_or]
  cases a.testBit i <;> cases b.testBit i <;> cases c.testBit i <;> rfl

/-- A busy-wait started at read `k` ends at the first read not satisfying the
loop condition, given enough fuel to reach a read `i` where it fails. -/
theorem busy_wait_exit (cond : Nat → Bool) (rd : Nat → Nat) :
    ∀ (fuel k i : Nat), k ≤ i → cond (rd i) = false → i - k < fuel →
      ∃ j, busy_wait cond rd fuel k = some (j + 1) ∧ k ≤ j ∧ j ≤ i := by
  intro fuel
  induction fuel with
  | zero => intro k i _ _ hf; omega
  | succ n ih =>
    intro k i hki hc hf
    unfold busy_wait
    by_cases hk : cond (rd k) = true
    · have hne : k ≠ i := by
        intro e; subst e; rw [hc] at hk; exact Bool.noConfusion hk
      obtain ⟨j, hj, h1, h2⟩ := ih (k + 1) i (by omega) hc (by omega)
      refine ⟨j, ?_, by omega, h2⟩
      simp [hk, hj]
    · refine ⟨k, ?_, le_refl k, hki⟩
      simp [hk]

/-- Whatever the reads, a completed `pwm_register_config` has cleared the PWM
control register and made these four Clock Manager writes. -/
theorem pwm_register_config_trace (K : HwConsts) (hw_type : Nat) (rd : Nat → Nat)
    (fuel : Nat) (pwm p : PwmRegs) (t : List CmWrite)
    (h : pwm_register_config K hw_type rd fuel pwm = some (p, t)) :
    p = { pwm with ctl := 0 } ∧
    t = [⟨CmReg.ctl, K.CM_CLK_CTL_PASSWD ||| K.CM_CLK_CTL_KILL⟩,
         ⟨CmReg.div, K.CM_CLK_DIV_PASSWD ||| K.CM_CLK_DIV_DIVI (clock_divisor K hw_type)⟩,
         ⟨CmReg.ctl, K.CM_CLK_CTL_PASSWD ||| K.CM_CLK_CTL_SRC_OSC⟩,
         ⟨CmReg.ctl, K.CM_CLK_CTL_PASSWD ||| K.CM_CLK_CTL_SRC_OSC ||| K.CM_CLK_CTL_ENAB⟩] := by
  unfold pwm_register_config at h
  simp only at h
  split at h
  · exact Option.noConfusion h
  · split at h
    · exact Option.noConfusion h
    · simp only [Option.some.injEq, Prod.mk.injEq] at h
      exact ⟨h.1.symm, h.2.symm⟩

/-- When some read `a` shows the busy bit clear and a later read `b` shows it
set, `pwm_register_config` completes with any fuel above `b`. -/
theorem pwm_register_config_returns (K : HwConsts) (hw_type : Nat) (rd : Nat → Nat)
    (pwm : PwmRegs) (a b : Nat)
    (ha : rd a &&& K.CM_CLK_CTL_BUSY = 0) (hab : a < b)
    (hb : rd b &&& K.CM_CLK_CTL_BUSY ≠ 0) (fuel : Nat) (hf : b < fuel) :
    ∃ r, pwm_register_config K hw_type rd fuel pwm = some r := by
  obtain ⟨j, hj, _, hja⟩ := busy_wait_exit (fun v => decide (v &&& K.CM_CLK_CTL_BUSY ≠ 0)) rd
    fuel 0 a (Nat.zero_le a) (by simp [ha]) (by omega)
  obtain ⟨j2, hj2, _, _⟩ := busy_wait_exit
    (fun v => decide (¬ (v &&& K.CM_CLK_CTL_BUSY ≠ 0))) rd fuel (j + 1) b (by omega)
    (by simp [hb]) (by omega)
  unfold pwm_register_config
  simp only [hj, hj2]
  exact ⟨_, rfl⟩

/-- The 32-bit product `3 * freq` does not wrap. -/
theorem clock_divisor_unfold (K : HwConsts) (hw_type : Nat) :
    clock_divisor K hw_type = osc_freq K hw_type / (3 * 800000) := by
  unfold clock_divisor mul32
  rfl

/-- Claim C8. The divisor computed by `pwm_register_config` for the target
frequency 800000 is `osc_freq / (3 * 800000)` (truncating), where `osc_freq` is
54000000 exactly when the descriptor type is `RPI_HWVER_TYPE_PI4` and 19200000
otherwise; so the divisor is 22 for the Pi 4 oscillator and 8 for the other. -/
theorem clock_divisor_value (K : HwConsts) (hw_type : Nat) :
    clock_divisor K hw_type = osc_freq K hw_type / (3 * 800000) ∧
    osc_freq K hw_type = (if hw_type = K.RPI_HWVER_TYPE_PI4 then 54000000 else 19200000) ∧
    clock_divisor K hw_type = (if hw_type = K.RPI_HWVER_TYPE_PI4 then 22 else 8) := by
  unfold clock_divisor osc_freq OSC_FREQ OSC_FREQ_PI4 mul32
  by_cases h : hw_type = K.RPI_HWVER_TYPE_PI4 <;> simp [h]

/-- Claim C7. With the enable masks being single bits `b1` (PWEN1) and `b2`
(PWEN2) and any 32-bit control register value, `enable_pwm` sets and
`disable_pwm` clears the bit of the active channel (`b1` when `channel_num` is
0, `b2` otherwise), every other bit of the control register keeps its value
(so the other channel's enable bit does), and the range and data registers are
unchanged. -/
theorem enable_disable_pwm_bit (K : HwConsts) (g : Globals) (pwm : PwmRegs) (b1 b2 : Nat)
    (h1 : K.RPI_PWM_CTL_PWEN1 = 2 ^ b1) (h2 : K.RPI_PWM_CTL_PWEN2 = 2 ^ b2)
    (hctl : pwm.ctl < 2 ^ 32) :
    (∀ i, (enable_pwm K g pwm).ctl.testBit i =
        if i = (if g.channel_num = 0 then b1 else b2) then true else pwm.ctl.testBit i) ∧
    (∀ i, (disable_pwm K g pwm).ctl.testBit i =
        if i = (if g.channel_num = 0 then b1 else b2) then false else pwm.ctl.testBit i) ∧
    ((enable_pwm K g pwm).rng1 = pwm.rng1 ∧ (enable_pwm K g pwm).dat1 = pwm.dat1 ∧
      (enable_pwm K g pwm).rng2 = pwm.rng2 ∧ (enable_pwm K g pwm).dat2 = pwm.dat2) ∧
    ((disable_pwm K g pwm).rng1 = pwm.rng1 ∧ (disable_pwm K g pwm).dat1 = pwm.dat1 ∧
      (disable_pwm K g pwm).rng2 = pwm.rng2 ∧ (disable_pwm K g pwm).dat2 = pwm.dat2) := by
  by_cases hc : g.channel_num = 0
  · refine ⟨fun i => ?_, fun i => ?_, ?_, ?_⟩
    · simp only [enable_pwm, hc, if_true, h1]
      exact testBit_or_two_pow _ _ _
    · simp only [disable_pwm, hc, if_true, h1]
      exact testBit_and_not32_two_pow _ _ _ hctl
    · simp [enable_pwm, hc]
    · simp [disable_pwm, hc]
  · refine ⟨fun i => ?_, fun i => ?_, ?_, ?_⟩
    · simp only [enable_pwm, hc, if_false, h2]
      exact testBit_or_two_pow _ _ _
    · simp only [disable_pwm, hc, if_false, h2]
      exact testBit_and_not32_two_pow _ _ _ hctl
    · simp [enable_pwm, hc]
    · simp [disable_pwm, hc]

/-- Every bit of `b` is set in `a | b`. -/
theorem and_self_of_or_right (a b : Nat) : (a ||| b) &&& b = b := by
  apply Nat.eq_of_testBit_eq
  intro i
  simp only [Nat.testBit_and, Nat.testBit_or]
  cases a.testBit i <;> cases b.testBit i <;> rfl

/-- Claim C10. When a read of the clock control register shows the busy bit
clear and a later read shows it set, `pwm_register_config` runs to completion
(with enough fuel); and whenever it completes, its writes to the Clock Manager
are exactly, in order: control := PASSWD | KILL; divisor := PASSWD |
DIVI(osc_freq / (3 * 800000)); control := PASSWD | SRC_OSC; control := PASSWD |
SRC_OSC | ENAB.  Every write carries the password of its register, and (the
enable bit being distinct from the password, kill and source bits) the enable
bit is set in no control write but the last, which also has the source bit. -/
theorem pwm_register_config_clock_writes (K : HwConsts) (hw_type : Nat) (rd : Nat → Nat)
    (pwm : PwmRegs) (a b : Nat)
    (ha : rd a &&& K.CM_CLK_CTL_BUSY = 0) (hab : a < b)
    (hb : rd b &&& K.CM_CLK_CTL_BUSY ≠ 0)
    (hk : (K.CM_CLK_CTL_PASSWD ||| K.CM_CLK_CTL_KILL) &&& K.CM_CLK_CTL_ENAB = 0)
    (hs : (K.CM_CLK_CTL_PASSWD ||| K.CM_CLK_CTL_SRC_OSC) &&& K.CM_CLK_CTL_ENAB = 0) :
    (∀ fuel, b < fuel → ∃ r, pwm_register_config K hw_type rd fuel pwm = some r) ∧
    (∀ fuel p t, pwm_register_config K hw_type rd fuel pwm = some (p, t) →
      t = [⟨CmReg.ctl, K.CM_CLK_CTL_PASSWD ||| K.CM_CLK_CTL_KILL⟩,
           ⟨CmReg.div, K.CM_CLK_DIV_PASSWD |||
              K.CM_CLK_DIV_DIVI (osc_freq K hw_type / (3 * 800000))⟩,
           ⟨CmReg.ctl, K.CM_CLK_CTL_PASSWD ||| K.CM_CLK_CTL_SRC_OSC⟩,
           ⟨CmReg.ctl, K.CM_CLK_CTL_PASSWD ||| K.CM_CLK_CTL_SRC_OSC ||| K.CM_CLK_CTL_ENAB⟩] ∧
      (∀ w ∈ t,
        (w.reg = CmReg.ctl → w.val &&& K.CM_CLK_CTL_PASSWD = K.CM_CLK_CTL_PASSWD) ∧
        (w.reg = CmReg.div → w.val &&& K.CM_CLK_DIV_PASSWD = K.CM_CLK_DIV_PASSWD)) ∧
      (∀ i w, t[i]? = some w → w.reg = CmReg.ctl → w.val &&& K.CM_CLK_CTL_ENAB ≠ 0 → i = 3) ∧
      (∀ w, t[3]? = some w →
        w.val &&& K.CM_CLK_CTL_ENAB = K.CM_CLK_CTL_ENAB ∧
        w.val &&& K.CM_CLK_CTL_SRC_OSC = K.CM_CLK_CTL_SRC_OSC)) := by
  refine ⟨fun fuel hf => pwm_register_config_returns K hw_type rd pwm a b ha hab hb fuel hf, ?_⟩
  intro fuel p t h
  have ht := (pwm_register_config_trace K hw_type rd fuel pwm p t h).2
  have hdiv : clock_divisor K hw_type = osc_freq K hw_type / (3 * 800000) :=
    clock_divisor_unfold K hw_type
  rw [hdiv] at ht
  subst ht
  refine ⟨rfl, ?_, ?_, ?_⟩
  · intro w hw
    simp only [List.mem_cons, List.mem_singleton, List.not_mem_nil, or_false] at hw
    rcases hw with rfl | rfl | rfl | rfl
    · exact ⟨fun _ => and_self_of_or_left _ _, fun e => CmReg.noConfusion e⟩
    · exact ⟨fun e => CmReg.noConfusion e, fun _ => and_self_of_or_left _ _⟩
    · exact ⟨fun _ => and_self_of_or_left _ _, fun e => CmReg.noConfusion e⟩
    · refine ⟨fun _ => ?_, fun e => CmReg.noConfusion e⟩
      rw [Nat.lor_assoc]
      exact and_self_of_or_left _ _
  · intro i w hi hreg hen
    match i, hi with
    | 0, hi =>
      simp only [List.getElem?_cons_zero, Option.some.injEq] at hi
      subst hi
      exact absurd hk hen
    | 1, hi =>
      simp only [List.getElem?_cons_succ, List.getElem?_cons_zero, Option.some.injEq] at hi
      subst hi
      exact CmReg.noConfusion hreg
    | 2, hi =>
      simp only [List.getElem?_cons_succ, List.getElem?_cons_zero, Option.some.injEq] at hi
      subst hi
      exact absurd hs hen
    | 3, _ => rfl
    | n + 4, hi =>
      simp at hi
  · intro w hw
    simp only [List.getElem?_cons_succ, List.getElem?_cons_zero, Option.some.injEq] at hw
    subst hw
    refine ⟨and_self_of_or_right _ _, ?_⟩
    show (K.CM_CLK_CTL_PASSWD ||| K.CM_CLK_CTL_SRC_OSC ||| K.CM_CLK_CTL_ENAB) &&&
      K.CM_CLK_CTL_SRC_OSC = K.CM_CLK_CTL_SRC_OSC
    rw [or_and_distrib, and_self_of_or_right]
    apply Nat.eq_of_testBit_eq
    intro i
    simp only [Nat.testBit_and, Nat.testBit_or]
    cases K.CM_CLK_CTL_SRC_OSC.testBit i <;> cases K.CM_CLK_CTL_ENAB.testBit i <;> rfl

/-- Witness of claim C10 on the read sequence `rd_example`. -/
theorem pwm_register_config_clock_writes_witness :
    (rd_example 2 &&& bcm.CM_CLK_CTL_BUSY = 0) ∧ 2 < 4 ∧
    (rd_example 4 &&& bcm.CM_CLK_CTL_BUSY ≠ 0) ∧
    ((bcm.CM_CLK_CTL_PASSWD ||| bcm.CM_CLK_CTL_KILL) &&& bcm.CM_CLK_CTL_ENAB = 0) ∧
    ((bcm.CM_CLK_CTL_PASSWD ||| bcm.CM_CLK_CTL_SRC_OSC) &&& bcm.CM_CLK_CTL_ENAB = 0) ∧
    (∃ r, pwm_register_config bcm 4 rd_example 5 ⟨77, 1, 2, 3, 4⟩ = some r) :=
  ⟨by decide, by decide, by decide, by decide, by decide,
    (pwm_register_config_clock_writes bcm 4 rd_example ⟨77, 1, 2, 3, 4⟩ 2 4
      (by decide) (by decide) (by decide) (by decide) (by decide)).1 5 (by decide)⟩

/-- Claim C9. Whatever duty cycle is requested on the command line, with the
channel resolved to 0, the pin to 18, a successful mapping and pin resolution
and a clock whose busy bit clears and later sets, the startup sequence of `main`
completes, and the PWM registers then have `rng1 = 100`, `dat1 = 0` and the
control register equal to the PWEN1 mask (channel 0 enabled). -/
theorem main_startup_forces_zero_duty (K : HwConsts)
    (gpio_opt channel_opt d_cycle_opt : Option Int) (hw_type : Nat)
    (pwm_pin_alt : Int → Int → Int) (rd : Nat → Nat) (pwm : PwmRegs) (a b : Nat)
    (hg : (parse_args gpio_opt channel_opt d_cycle_opt).gpio_num = 18)
    (hc : (parse_args gpio_opt channel_opt d_cycle_opt).channel_num = 0)
    (hpin : pwm_pin_alt 0 18 ≠ -1)
    (ha : rd a &&& K.CM_CLK_CTL_BUSY = 0) (hab : a < b)
    (hb : rd b &&& K.CM_CLK_CTL_BUSY ≠ 0) :
    (∀ fuel, b < fuel → ∃ s, main_startup K gpio_opt channel_opt d_cycle_opt hw_type true
        pwm_pin_alt rd fuel pwm = Except.ok s) ∧
    (∀ fuel s, main_startup K gpio_opt channel_opt d_cycle_opt hw_type true
        pwm_pin_alt rd fuel pwm = Except.ok s →
      s.rng1 = 100 ∧ s.dat1 = 0 ∧ s.ctl = K.RPI_PWM_CTL_PWEN1 ∧
      s.ctl &&& K.RPI_PWM_CTL_PWEN1 = K.RPI_PWM_CTL_PWEN1) := by
  have hpin2 : check_pin_setup pwm_pin_alt
      { parse_args gpio_opt channel_opt d_cycle_opt with duty_cycle := 0 } = true := by
    simp [check_pin_setup, hg, hc, hpin]
  constructor
  · intro fuel hf
    obtain ⟨⟨p, t⟩, hr⟩ := pwm_register_config_returns K hw_type rd pwm a b ha hab hb fuel hf
    simp [main_startup, hpin2, hr]
  · intro fuel s h
    unfold main_startup at h
    simp only [hpin2, not_true_eq_false, if_false] at h
    split at h
    · exact Except.noConfusion h
    · rename_i p t hr
      have hp := (pwm_register_config_trace K hw_type rd fuel pwm p t hr).1
      simp only [Except.ok.injEq] at h
      subst h
      subst hp
      simp [enable_pwm, pwm_set_duty_cycle, set_pwm_max, hc, mul32, int_to_u32]

/-- Without 32-bit wrap `change_value` is the mathematical `delta * range / 100`. -/
theorem change_value_natCast (delta r : Nat) (hr : r ≠ 0) (h : delta * r < 2 ^ 32) :
    change_value (delta : Int) r = delta * r / 100 := by
  have hle : delta ≤ delta * r := Nat.le_mul_of_pos_right delta (Nat.pos_of_ne_zero hr)
  have hd : delta < 2 ^ 32 := lt_of_le_of_lt hle h
  unfold change_value mul32
  rw [int_to_u32_natCast, Nat.mod_eq_of_lt hd, Nat.mod_eq_of_lt h]

/-- A sum bounded by a 32-bit value does not wrap. -/
theorem add32_of_le (d cv r : Nat) (hr : r < 2 ^ 32) (h : d + cv ≤ r) :
    add32 d cv = d + cv := by
  unfold add32
  exact Nat.mod_eq_of_lt (lt_of_le_of_lt h hr)

/-- One increase by 10 with range 100, channel 0 enabled alone. -/
theorem increase_step (K : HwConsts) (c d r2 d2 : Nat)
    (h1 : c &&& K.RPI_PWM_CTL_PWEN1 ≠ 0) (h2 : c &&& K.RPI_PWM_CTL_PWEN2 = 0)
    (hd : d + 10 ≤ 100) :
    pwm_duty_cycle_change K ⟨c, 100, d, r2, d2⟩ 10 INCREASE = some ⟨c, 100, d + 10, r2, d2⟩ := by
  have hcv : change_value 10 100 = 10 := by decide
  have hadd : add32 d 10 = d + 10 := add32_of_le d 10 100 (by decide) hd
  have hgt : ¬ (d + 10 > 100) := by omega
  simp [pwm_duty_cycle_change, channel1_block, channel2_block, h1, h2, hcv, hadd, hgt]

/-- One decrease by 10 with range 100, channel 0 enabled alone. -/
theorem decrease_step (K : HwConsts) (c d r2 d2 : Nat)
    (h1 : c &&& K.RPI_PWM_CTL_PWEN1 ≠ 0) (h2 : c &&& K.RPI_PWM_CTL_PWEN2 = 0)
    (hd : d + 10 ≤ 100) :
    pwm_duty_cycle_change K ⟨c, 100, d + 10, r2, d2⟩ 10 DECREASE = some ⟨c, 100, d, r2, d2⟩ := by
  have hcv : change_value 10 100 = 10 := by decide
  have hsub : sub32 (d + 10) 10 = d := by
    unfold sub32
    omega
  simp [pwm_duty_cycle_change, channel1_block, channel2_block, h1, h2, hcv, hsub]

/-- Claim C5. From a state where channel 0 is the only enabled channel,
`rng1 = 100` and `dat1 = 0`, one iteration of the oscillation loop of `main`
completes; `dat1` is 10, 20, ..., 100 after the ten increases and 90, 80, ..., 0
after the ten decreases, `rng1` is 100 throughout, and the final state is the
initial one. -/
theorem main_loop_iteration_values (K : HwConsts) (s : PwmRegs)
    (h1 : s.ctl &&& K.RPI_PWM_CTL_PWEN1 ≠ 0) (h2 : s.ctl &&& K.RPI_PWM_CTL_PWEN2 = 0)
    (hr : s.rng1 = 100) (hd : s.dat1 = 0) :
    ∃ l, main_loop_iteration K s = some l ∧
      l.map PwmRegs.dat1 =
        [10, 20, 30, 40, 50, 60, 70, 80, 90, 100, 90, 80, 70, 60, 50, 40, 30, 20, 10, 0] ∧
      l.map PwmRegs.rng1 = List.replicate 20 100 ∧
      l.getLast? = some s := by
  obtain ⟨c, r1, d1, r2, d2⟩ := s
  simp only at h1 h2 hr hd
  subst hr
  subst hd
  have up : duty_cycle_loop K 10 INCREASE 10 ⟨c, 100, 0, r2, d2⟩ =
      some [⟨c, 100, 10, r2, d2⟩, ⟨c, 100, 20, r2, d2⟩, ⟨c, 100, 30, r2, d2⟩,
        ⟨c, 100, 40, r2, d2⟩, ⟨c, 100, 50, r2, d2⟩, ⟨c, 100, 60, r2, d2⟩,
        ⟨c, 100, 70, r2, d2⟩, ⟨c, 100, 80, r2, d2⟩, ⟨c, 100, 90, r2, d2⟩,
        ⟨c, 100, 100, r2, d2⟩] := by
    simp only [duty_cycle_loop]
    rw [increase_step K c 0 r2 d2 h1 h2 (by decide)]
    simp only []
    rw [increase_step K c 10 r2 d2 h1 h2 (by decide)]
    simp only []
    rw [increase_step K c 20 r2 d2 h1 h2 (by decide)]
    simp only []
    rw [increase_step K c 30 r2 d2 h1 h2 (by decide)]
    simp only []
    rw [increase_step K c 40 r2 d2 h1 h2 (by decide)]
    simp only []
    rw [increase_step K c 50 r2 d2 h1 h2 (by decide)]
    simp only []
    rw [increase_step K c 60 r2 d2 h1 h2 (by decide)]
    simp only []
    rw [increase_step K c 70 r2 d2 h1 h2 (by decide)]
    simp only []
    rw [increase_step K c 80 r2 d2 h1 h2 (by decide)]
    simp only []
    rw [increase_step K c 90 r2 d2 h1 h2 (by decide)]
  have down : duty_cycle_loop K 10 DECREASE 10 ⟨c, 100, 100, r2, d2⟩ =
      some [⟨c, 100, 90, r2, d2⟩, ⟨c, 100, 80, r2, d2⟩, ⟨c, 100, 70, r2, d2⟩,
        ⟨c, 100, 60, r2, d2⟩, ⟨c, 100, 50, r2, d2⟩, ⟨c, 100, 40, r2, d2⟩,
        ⟨c, 100, 30, r2, d2⟩, ⟨c, 100, 20, r2, d2⟩, ⟨c, 100, 10, r2, d2⟩,
        ⟨c, 100, 0, r2, d2⟩] := by
    simp only [duty_cycle_loop]
    rw [decrease_step K c 90 r2 d2 h1 h2 (by decide)]
    simp only []
    rw [decrease_step K c 80 r2 d2 h1 h2 (by decide)]
    simp only []
    rw [decrease_step K c 70 r2 d2 h1 h2 (by decide)]
    simp only []
    rw [decrease_step K c 60 r2 d2 h1 h2 (by decide)]
    simp only []
    rw [decrease_step K c 50 r2 d2 h1 h2 (by decide)]
    simp only []
    rw [decrease_step K c 40 r2 d2 h1 h2 (by decide)]
    simp only []
    rw [decrease_step K c 30 r2 d2 h1 h2 (by decide)]
    simp only []
    rw [decrease_step K c 20 r2 d2 h1 h2 (by decide)]
    simp only []
    rw [decrease_step K c 10 r2 d2 h1 h2 (by decide)]
    simp only []
    rw [decrease_step K c 0 r2 d2 h1 h2 (by decide)]
  have hm : main_loop_iteration K ⟨c, 100, 0, r2, d2⟩ =
      some ([⟨c, 100, 10, r2, d2⟩, ⟨c, 100, 20, r2, d2⟩, ⟨c, 100, 30, r2, d2⟩,
        ⟨c, 100, 40, r2, d2⟩, ⟨c, 100, 50, r2, d2⟩, ⟨c, 100, 60, r2, d2⟩,
        ⟨c, 100, 70, r2, d2⟩, ⟨c, 100, 80, r2, d2⟩, ⟨c, 100, 90, r2, d2⟩,
        ⟨c, 100, 100, r2, d2⟩] ++
        [⟨c, 100, 90, r2, d2⟩, ⟨c, 100, 80, r2, d2⟩, ⟨c, 100, 70, r2, d2⟩,
        ⟨c, 100, 60, r2, d2⟩, ⟨c, 100, 50, r2, d2⟩, ⟨c, 100, 40, r2, d2⟩,
        ⟨c, 100, 30, r2, d2⟩, ⟨c, 100, 20, r2, d2⟩, ⟨c, 100, 10, r2, d2⟩,
        ⟨c, 100, 0, r2, d2⟩]) := by
    have hl : List.getLastD [(⟨c, 100, 10, r2, d2⟩ : PwmRegs), ⟨c, 100, 20, r2, d2⟩,
        ⟨c, 100, 30, r2, d2⟩, ⟨c, 100, 40, r2, d2⟩, ⟨c, 100, 50, r2, d2⟩, ⟨c, 100, 60, r2, d2⟩,
        ⟨c, 100, 70, r2, d2⟩, ⟨c, 100, 80, r2, d2⟩, ⟨c, 100, 90, r2, d2⟩,
        ⟨c, 100, 100, r2, d2⟩] ⟨c, 100, 0, r2, d2⟩ = ⟨c, 100, 100, r2, d2⟩ := rfl
    unfold main_loop_iteration
    rw [up]
    simp only []
    rw [hl, down]
  exact ⟨_, hm, rfl, rfl, rfl⟩

/-- The first block on an accepted increase. -/
theorem channel1_block_increase_accept (K : HwConsts) (s : PwmRegs) (percentage : Int)
    (he : s.ctl &&& K.RPI_PWM_CTL_PWEN1 ≠ 0) (hr : s.rng1 ≠ 0)
    (hacc : ¬ (add32 s.dat1 (change_value percentage s.rng1) > s.rng1)) :
    channel1_block K s percentage INCREASE =
      some (false, { s with dat1 := add32 s.dat1 (change_value percentage s.rng1) }) := by
  simp [channel1_block, he, hr, hacc]

/-- The first block does nothing when channel 0 is disabled. -/
theorem channel1_block_disabled (K : HwConsts) (s : PwmRegs) (percentage : Int)
    (change : duty_cycle_change_t) (he : ¬ (s.ctl &&& K.RPI_PWM_CTL_PWEN1 ≠ 0)) :
    channel1_block K s percentage change = some (false, s) := by
  simp [channel1_block, he]

/-- The second block on an increase: it never rejects. -/
theorem channel2_block_increase (K : HwConsts) (s : PwmRegs) (percentage : Int)
    (hr : s.ctl &&& K.RPI_PWM_CTL_PWEN2 ≠ 0 → s.rng2 ≠ 0) :
    ∃ s', channel2_block K s percentage INCREASE = some s' ∧
      s'.dat1 = s.dat1 ∧
      (s.ctl &&& K.RPI_PWM_CTL_PWEN2 ≠ 0 →
        s'.dat2 = add32 s.dat2 (change_value percentage s.rng2)) := by
  by_cases he : s.ctl &&& K.RPI_PWM_CTL_PWEN2 ≠ 0
  · have h0 := hr he
    exact ⟨{ s with dat2 := add32 s.dat2 (change_value percentage s.rng2) },
      by simp [channel2_block, he, h0], rfl, fun _ => rfl⟩
  · exact ⟨s, by simp [channel2_block, he], rfl, fun h => absurd h he⟩

/-- Claim C1 (amended). In a state of 32-bit registers where every enabled
channel has a nonzero range, for `delta ≥ 0`: if channel 0 is enabled,
`delta * rng1 < 2 ^ 32` and `dat1 + delta * rng1 / 100 ≤ rng1`, the call returns
and `dat1` becomes `dat1 + delta * rng1 / 100`; if channel 1 is enabled,
`delta * rng2 < 2 ^ 32`, `dat2 + delta * rng2 / 100 ≤ rng2` and channel 0, when
enabled, does not reject its own change, the call returns and `dat2` becomes
`dat2 + delta * rng2 / 100`. -/
theorem pwm_duty_cycle_increase_within_bound (K : HwConsts) (s : PwmRegs) (delta : Nat)
    (hwf : s.wf)
    (hr1 : s.ctl &&& K.RPI_PWM_CTL_PWEN1 ≠ 0 → s.rng1 ≠ 0)
    (hr2 : s.ctl &&& K.RPI_PWM_CTL_PWEN2 ≠ 0 → s.rng2 ≠ 0) :
    (s.ctl &&& K.RPI_PWM_CTL_PWEN1 ≠ 0 → delta * s.rng1 < 2 ^ 32 →
      s.dat1 + delta * s.rng1 / 100 ≤ s.rng1 →
      ∃ s', pwm_duty_cycle_change K s (delta : Int) INCREASE = some s' ∧
        s'.dat1 = s.dat1 + delta * s.rng1 / 100) ∧
    (s.ctl &&& K.RPI_PWM_CTL_PWEN2 ≠ 0 → delta * s.rng2 < 2 ^ 32 →
      s.dat2 + delta * s.rng2 / 100 ≤ s.rng2 →
      (s.ctl &&& K.RPI_PWM_CTL_PWEN1 ≠ 0 →
        ¬ (add32 s.dat1 (change_value (delta : Int) s.rng1) > s.rng1)) →
      ∃ s', pwm_duty_cycle_change K s (delta : Int) INCREASE = some s' ∧
        s'.dat2 = s.dat2 + delta * s.rng2 / 100) := by
  obtain ⟨_, hw1, _, hw2, _⟩ := hwf
  constructor
  · intro he hnw hb
    have h0 := hr1 he
    have hcv := change_value_natCast delta s.rng1 h0 hnw
    have hadd : add32 s.dat1 (delta * s.rng1 / 100) = s.dat1 + delta * s.rng1 / 100 :=
      add32_of_le _ _ _ hw1 hb
    have hacc : ¬ (add32 s.dat1 (change_value (delta : Int) s.rng1) > s.rng1) := by
      rw [hcv, hadd]; omega
    obtain ⟨s', hs', hd1, _⟩ := channel2_block_increase K
      { s with dat1 := add32 s.dat1 (change_value (delta : Int) s.rng1) } (delta : Int) hr2
    refine ⟨s', ?_, ?_⟩
    · unfold pwm_duty_cycle_change
      rw [channel1_block_increase_accept K s _ he h0 hacc]
      exact hs'
    · rw [hd1]
      show add32 s.dat1 (change_value (delta : Int) s.rng1) = _
      rw [hcv, hadd]
  · intro he hnw hb hacc0
    have h0 := hr2 he
    have hcv := change_value_natCast delta s.rng2 h0 hnw
    have hadd : add32 s.dat2 (delta * s.rng2 / 100) = s.dat2 + delta * s.rng2 / 100 :=
      add32_of_le _ _ _ hw2 hb
    by_cases he1 : s.ctl &&& K.RPI_PWM_CTL_PWEN1 ≠ 0
    · obtain ⟨s', hs', _, hd2⟩ := channel2_block_increase K
        { s with dat1 := add32 s.dat1 (change_value (delta : Int) s.rng1) } (delta : Int) hr2
      refine ⟨s', ?_, ?_⟩
      · unfold pwm_duty_cycle_change
        rw [channel1_block_increase_accept K s _ he1 (hr1 he1) (hacc0 he1)]
        exact hs'
      · rw [hd2 he]
        show add32 s.dat2 (change_value (delta : Int) s.rng2) = _
        rw [hcv, hadd]
    · obtain ⟨s', hs', _, hd2⟩ := channel2_block_increase K s (delta : Int) hr2
      refine ⟨s', ?_, ?_⟩
      · unfold pwm_duty_cycle_change
        rw [channel1_block_disabled K s _ _ he1]
        exact hs'
      · rw [hd2 he, hcv, hadd]

/-- Claim C4 (amended). For every percentage `p` with `0 ≤ p ≤ 100` and every
value `r` of the active channel's range register, after `pwm_set_duty_cycle`
the range register is unchanged, the active channel's data register is at most
`r`, and it equals `r * p / 100` whenever `r * p < 2 ^ 32`. -/
theorem pwm_set_duty_cycle_value (g : Globals) (pwm : PwmRegs) (p : Nat)
    (hp : p ≤ 100) (hd : g.duty_cycle = (p : Int)) :
    (g.channel_num = 0 →
      (pwm_set_duty_cycle g pwm).rng1 = pwm.rng1 ∧
      (pwm_set_duty_cycle g pwm).dat1 ≤ pwm.rng1 ∧
      (pwm.rng1 * p < 2 ^ 32 → (pwm_set_duty_cycle g pwm).dat1 = pwm.rng1 * p / 100)) ∧
    (g.channel_num ≠ 0 →
      (pwm_set_duty_cycle g pwm).rng2 = pwm.rng2 ∧
      (pwm_set_duty_cycle g pwm).dat2 ≤ pwm.rng2 ∧
      (pwm.rng2 * p < 2 ^ 32 → (pwm_set_duty_cycle g pwm).dat2 = pwm.rng2 * p / 100)) := by
  have hp32 : p % 2 ^ 32 = p := Nat.mod_eq_of_lt (by omega)
  have key : ∀ r : Nat, mul32 r (int_to_u32 (p : Int)) / 100 ≤ r ∧
      (r * p < 2 ^ 32 → mul32 r (int_to_u32 (p : Int)) / 100 = r * p / 100) := by
    intro r
    rw [int_to_u32_natCast, hp32]
    unfold mul32
    constructor
    · by_cases h : r * p < 2 ^ 32
      · rw [Nat.mod_eq_of_lt h]
        apply Nat.div_le_of_le_mul
        nlinarith
      · have h1 : r * p ≤ 100 * r := by nlinarith
        have h2 : r * p % 2 ^ 32 < 2 ^ 32 := Nat.mod_lt _ (by decide)
        apply Nat.div_le_of_le_mul
        omega
    · intro h
      rw [Nat.mod_eq_of_lt h]
  constructor
  · intro hc
    have e : pwm_set_duty_cycle g pwm =
        { pwm with dat1 := mul32 pwm.rng1 (int_to_u32 (p : Int)) / 100 } := by
      simp only [pwm_set_duty_cycle, hc, if_true, hd]
    rw [e]
    exact ⟨rfl, (key pwm.rng1).1, (key pwm.rng1).2⟩
  · intro hc
    have e : pwm_set_duty_cycle g pwm =
        { pwm with dat2 := mul32 pwm.rng2 (int_to_u32 (p : Int)) / 100 } := by
      simp only [pwm_set_duty_cycle, hc, if_false, hd]
    rw [e]
    exact ⟨rfl, (key pwm.rng2).1, (key pwm.rng2).2⟩

/-- The test `data_register - change_value < 0` is on unsigned values: it is
false for all operands. -/
theorem decrease_guard_never_fires (d cv : Nat) : ¬ (sub32 d cv < 0) := Nat.not_lt_zero _

/-- Channel 0 rejects an increase past the range: the registers are unchanged. -/
theorem channel1_increase_rejects (K : HwConsts) (s : PwmRegs) (percentage : Int)
    (he : s.ctl &&& K.RPI_PWM_CTL_PWEN1 ≠ 0) (hr : s.rng1 ≠ 0)
    (hrej : add32 s.dat1 (change_value percentage s.rng1) > s.rng1) :
    pwm_duty_cycle_change K s percentage INCREASE = some s := by
  simp [pwm_duty_cycle_change, channel1_block, he, hr, hrej]

/-- Function `set_pwm_max` writes `rng1` and leaves `rng2` alone. -/
theorem set_pwm_max_frame (pwm : PwmRegs) (range : Nat) :
    (set_pwm_max pwm range).rng1 = range ∧ (set_pwm_max pwm range).rng2 = pwm.rng2 :=
  ⟨rfl, rfl⟩

/-- Counterexample to claim C1 as stated, at four inputs where the bound
`data + delta * range / 100 ≤ range` holds for an enabled channel: the 32-bit
product `delta * range` wraps (`rng1 = 2 ^ 31`, `delta = 10`: `dat1` stays 0,
not 214748364); the range is 0 (the call divides by zero); both channels are
enabled and channel 0 rejects (`dat2` stays 0, not 10); `delta` is negative
(`dat1` stays 50, not 40). -/
theorem pwm_duty_cycle_increase_counterexample :
    ((1 : Nat) &&& bcm.RPI_PWM_CTL_PWEN1 ≠ 0 ∧
      0 + 10 * 2147483648 / 100 ≤ 2147483648 ∧
      pwm_duty_cycle_change bcm ⟨1, 2147483648, 0, 0, 0⟩ 10 INCREASE =
        some ⟨1, 2147483648, 0, 0, 0⟩ ∧
      (0 : Nat) ≠ 0 + 10 * 2147483648 / 100) ∧
    ((1 : Nat) &&& bcm.RPI_PWM_CTL_PWEN1 ≠ 0 ∧
      0 + 10 * 0 / 100 ≤ 0 ∧
      pwm_duty_cycle_change bcm ⟨1, 0, 0, 0, 0⟩ 10 INCREASE = none) ∧
    ((257 : Nat) &&& bcm.RPI_PWM_CTL_PWEN2 ≠ 0 ∧
      0 + 10 * 100 / 100 ≤ 100 ∧
      pwm_duty_cycle_change bcm ⟨257, 100, 95, 100, 0⟩ 10 INCREASE =
        some ⟨257, 100, 95, 100, 0⟩ ∧
      (0 : Nat) ≠ 0 + 10 * 100 / 100) ∧
    ((1 : Nat) &&& bcm.RPI_PWM_CTL_PWEN1 ≠ 0 ∧
      (50 : Int) + (-10) * 100 / 100 ≤ 100 ∧
      pwm_duty_cycle_change bcm ⟨1, 100, 50, 0, 0⟩ (-10) INCREASE = some ⟨1, 100, 50, 0, 0⟩ ∧
      (50 : Int) ≠ 50 + (-10) * 100 / 100) := by
  decide

/-- Counterexample to claim C4 as stated: with `r = 100000000` and `p = 50`
the 32-bit product wraps and the data register reads 7050327, not 50000000. -/
theorem pwm_set_duty_cycle_counterexample :
    (0 < 100000000 ∧ 100000000 < 2 ^ 32 ∧ (0 : Int) ≤ 50 ∧ (50 : Int) ≤ 100) ∧
    (pwm_set_duty_cycle ⟨18, 0, 50⟩ ⟨0, 100000000, 0, 0, 0⟩).dat1 = 7050327 ∧
    100000000 * 50 / 100 = 50000000 := by
  decide

/-- Claim C2, evaluation at the failing input: channel 1 enabled alone with
`rng2 = 100`, `dat2 = 100`; an increase by 10 exceeds the range, yet `dat2`
becomes 110. -/
theorem pwm_duty_cycle_increase_channel2_unchecked :
    (256 : Nat) &&& bcm.RPI_PWM_CTL_PWEN2 ≠ 0 ∧ 100 + 10 * 100 / 100 > 100 ∧
    pwm_duty_cycle_change bcm ⟨256, 0, 0, 100, 100⟩ 10 INCREASE =
      some ⟨256, 0, 0, 100, 110⟩ := by
  decide

/-- Claim C3, evaluation at failing inputs: a decrease by 10 with range 100
takes `dat1` from 5 to 4294967291 and from 0 to 4294967286, and `dat2` from 5 to
4294967291: the data register wraps modulo `2 ^ 32`. -/
theorem pwm_duty_cycle_decrease_wraps :
    pwm_duty_cycle_change bcm ⟨1, 100, 5, 0, 0⟩ 10 DECREASE =
      some ⟨1, 100, 4294967291, 0, 0⟩ ∧
    pwm_duty_cycle_change bcm ⟨1, 100, 0, 0, 0⟩ 10 DECREASE =
      some ⟨1, 100, 4294967286, 0, 0⟩ ∧
    pwm_duty_cycle_change bcm ⟨256, 0, 0, 100, 5⟩ 10 DECREASE =
      some ⟨256, 0, 0, 100, 4294967291⟩ := by
  decide

/-- Claim C6, evaluation at the failing input: with `channel_num = 1`,
`set_pwm_max 100` writes `rng1` and leaves `rng2` at 32, so the following
`pwm_set_duty_cycle` at 50 percent computes `dat2 = 16` from the old range. -/
theorem set_pwm_max_ignores_channel :
    set_pwm_max ⟨0, 32, 0, 32, 0⟩ 100 = ⟨0, 100, 0, 32, 0⟩ ∧
    pwm_set_duty_cycle ⟨18, 1, 50⟩ (set_pwm_max ⟨0, 32, 0, 32, 0⟩ 100) =
      ⟨0, 100, 0, 32, 16⟩ := by
  decide

/-- Witness of claim C1 (amended): both channels enabled, range 100. -/
theorem pwm_duty_cycle_increase_within_bound_witness :
    PwmRegs.wf ⟨257, 100, 0, 100, 50⟩ ∧
    (∃ s', pwm_duty_cycle_change bcm ⟨257, 100, 0, 100, 50⟩ ((10 : Nat) : Int) INCREASE = some s' ∧
      s'.dat1 = 0 + 10 * 100 / 100) ∧
    (∃ s', pwm_duty_cycle_change bcm ⟨257, 100, 0, 100, 50⟩ ((10 : Nat) : Int) INCREASE = some s' ∧
      s'.dat2 = 50 + 10 * 100 / 100) :=
  have hwf : PwmRegs.wf ⟨257, 100, 0, 100, 50⟩ :=
    ⟨by decide, by decide, by decide, by decide, by decide⟩
  ⟨hwf,
    (pwm_duty_cycle_increase_within_bound bcm ⟨257, 100, 0, 100, 50⟩ 10 hwf
      (by decide) (by decide)).1 (by decide) (by decide) (by decide),
    (pwm_duty_cycle_increase_within_bound bcm ⟨257, 100, 0, 100, 50⟩ 10 hwf
      (by decide) (by decide)).2 (by decide) (by decide) (by decide) (by decide)⟩

/-- Witness of claim C4 (amended): range 100 at 50 percent, on either channel. -/
theorem pwm_set_duty_cycle_value_witness :
    (50 ≤ 100) ∧
    (pwm_set_duty_cycle ⟨18, 0, 50⟩ ⟨0, 100, 0, 0, 0⟩).dat1 ≤ 100 ∧
    (pwm_set_duty_cycle ⟨18, 0, 50⟩ ⟨0, 100, 0, 0, 0⟩).dat1 = 100 * 50 / 100 ∧
    (pwm_set_duty_cycle ⟨18, 1, 50⟩ ⟨0, 0, 0, 100, 0⟩).dat2 = 100 * 50 / 100 :=
  ⟨by decide,
    ((pwm_set_duty_cycle_value ⟨18, 0, 50⟩ ⟨0, 100, 0, 0, 0⟩ 50 (by decide) rfl).1 rfl).2.1,
    ((pwm_set_duty_cycle_value ⟨18, 0, 50⟩ ⟨0, 100, 0, 0, 0⟩ 50 (by decide) rfl).1 rfl).2.2
      (by decide),
    ((pwm_set_duty_cycle_value ⟨18, 1, 50⟩ ⟨0, 0, 0, 100, 0⟩ 50 (by decide) rfl).2
      (by decide)).2.2 (by decide)⟩

/-- Witness of claim C5 with the concrete header constants. -/
theorem main_loop_iteration_values_witness :
    ((1 : Nat) &&& bcm.RPI_PWM_CTL_PWEN1 ≠ 0) ∧ ((1 : Nat) &&& bcm.RPI_PWM_CTL_PWEN2 = 0) ∧
    ∃ l, main_loop_iteration bcm ⟨1, 100, 0, 0, 0⟩ = some l ∧
      l.map PwmRegs.dat1 =
        [10, 20, 30, 40, 50, 60, 70, 80, 90, 100, 90, 80, 70, 60, 50, 40, 30, 20, 10, 0] ∧
      l.map PwmRegs.rng1 = List.replicate 20 100 ∧
      l.getLast? = some ⟨1, 100, 0, 0, 0⟩ :=
  ⟨by decide, by decide,
    main_loop_iteration_values bcm ⟨1, 100, 0, 0, 0⟩ (by decide) (by decide) rfl rfl⟩

/-- Witness of claim C7: bits 0 and 8 as enable bits. -/
theorem enable_disable_pwm_bit_witness :
    bcm.RPI_PWM_CTL_PWEN1 = 2 ^ 0 ∧ bcm.RPI_PWM_CTL_PWEN2 = 2 ^ 8 ∧
    (enable_pwm bcm ⟨18, 1, 0⟩ ⟨1, 100, 0, 100, 0⟩).ctl.testBit 8 = true ∧
    (enable_pwm bcm ⟨18, 1, 0⟩ ⟨1, 100, 0, 100, 0⟩).ctl.testBit 0 = true ∧
    (disable_pwm bcm ⟨18, 0, 0⟩ ⟨257, 100, 0, 100, 0⟩).ctl.testBit 0 = false ∧
    (disable_pwm bcm ⟨18, 0, 0⟩ ⟨257, 100, 0, 100, 0⟩).ctl.testBit 8 = true :=
  ⟨by decide, by decide,
    (enable_disable_pwm_bit bcm ⟨18, 1, 0⟩ ⟨1, 100, 0, 100, 0⟩ 0 8 (by decide) (by decide)
      (by decide)).1 8,
    (enable_disable_pwm_bit bcm ⟨18, 1, 0⟩ ⟨1, 100, 0, 100, 0⟩ 0 8 (by decide) (by decide)
      (by decide)).1 0,
    (enable_disable_pwm_bit bcm ⟨18, 0, 0⟩ ⟨257, 100, 0, 100, 0⟩ 0 8 (by decide) (by decide)
      (by decide)).2.1 0,
    (enable_disable_pwm_bit bcm ⟨18, 0, 0⟩ ⟨257, 100, 0, 100, 0⟩ 0 8 (by decide) (by decide)
      (by decide)).2.1 8⟩

/-- Witness of claim C9: default pin and channel, requested duty cycle 50. -/
theorem main_startup_forces_zero_duty_witness :
    (parse_args none none (some 50)).gpio_num = 18 ∧
    (parse_args none none (some 50)).channel_num = 0 ∧
    (rd_example 2 &&& bcm.CM_CLK_CTL_BUSY = 0) ∧ 2 < 4 ∧
    (rd_example 4 &&& bcm.CM_CLK_CTL_BUSY ≠ 0) ∧
    (∃ s, main_startup bcm none none (some 50) 3 true (fun _ _ => 5) rd_example 5
        ⟨77, 1, 2, 3, 4⟩ = Except.ok s) ∧
    main_startup bcm none none (some 50) 3 true (fun _ _ => 5) rd_example 5
        ⟨77, 1, 2, 3, 4⟩ = Except.ok ⟨1, 100, 0, 3, 4⟩ ∧
    ((⟨1, 100, 0, 3, 4⟩ : PwmRegs).rng1 = 100 ∧ (⟨1, 100, 0, 3, 4⟩ : PwmRegs).dat1 = 0 ∧
      (⟨1, 100, 0, 3, 4⟩ : PwmRegs).ctl = bcm.RPI_PWM_CTL_PWEN1 ∧
      (⟨1, 100, 0, 3, 4⟩ : PwmRegs).ctl &&& bcm.RPI_PWM_CTL_PWEN1 = bcm.RPI_PWM_CTL_PWEN1) :=
  ⟨rfl, rfl, by decide, by decide, by decide,
    (main_startup_forces_zero_duty bcm none none (some 50) 3 (fun _ _ => 5) rd_example
      ⟨77, 1, 2, 3, 4⟩ 2 4 rfl rfl (by decide) (by decide) (by decide) (by decide)).1 5
      (by decide),
    rfl,
    (main_startup_forces_zero_duty bcm none none (some 50) 3 (fun _ _ => 5) rd_example
      ⟨77, 1, 2, 3, 4⟩ 2 4 rfl rfl (by decide) (by decide) (by decide) (by decide)).2 5
      ⟨1, 100, 0, 3, 4⟩ rfl⟩

end PwmTest
